import Mathlib

/-
Shallow embedding of the tswow interactive command interpreter: the
splitArgs tokenizer, the Command tree (findCommand / handle / addCommand /
removeCommand) and the commands namespace (sendCommand, addCustomCommand,
the built-in print and command commands).  JS strings are Lean Strings,
JS objects with string keys are ordered association lists (JS preserves
insertion order; delete + re-insert moves a key to the end), thrown JS
values are JSError records, and the terminal / alias file side effects are
threaded through an explicit InterpState.
-/

/-- Output sink messages as emitted through the term facility: log lines
(term.log) and error reports (term.error), the latter with or without the
stack payload that is attached when the print_stacktrace flag is set. -/
inductive OutputLine where
  | log (msg : String)
  | error (msg : String)
  | errorStack (msg : String)
deriving DecidableEq, Repr

/-- A thrown JS value as seen by the catch clause in sendCommand.  Only the
message matters there; msg? = none models a thrown value that is falsy or
has no (or an undefined) message property, so that the test
`error && error.message` fails; msg? = some "" models an empty message,
which is falsy as well. -/
structure JSError where
  msg? : Option String
deriving DecidableEq, Repr

/-- Deep embedding of every kind of handler the module installs or that a
caller can register: the built-in print command, a generic observable leaf
handler (logH, standing for an arbitrary domain command that logs its tag
and arguments), a handler that throws, the alias replay handler that
addCustomCommand creates, and the built-in command (alias definition)
command. -/
inductive HandlerSpec where
  | print
  | logH (tag : String)
  | throwH (msg? : Option String)
  | aliasH (expansion : List String)
  | commandH
deriving DecidableEq, Repr

/-- The Command class.  The source computes fullname on demand by walking
the parent back-reference; since the back-reference is used for nothing
else, the embedding stores the (never changing) fullname at construction
time together with an isRoot flag recording `parent === undefined`.
children is the ordered mapping from child name to child node. -/
inductive Command where
  | mk (name fullname : String) (isRoot : Bool)
      (argDesc description : Option String)
      (handler : Option HandlerSpec)
      (children : List (String × Command))

/-- Accessor for the name field. -/
def Command.name : Command → String
  | .mk n _ _ _ _ _ _ => n

/-- Accessor for the stored fullname (the source's fullname getter). -/
def Command.fullname : Command → String
  | .mk _ f _ _ _ _ _ => f

/-- Accessor recording whether the node is the root (has no parent). -/
def Command.isRoot : Command → Bool
  | .mk _ _ r _ _ _ _ => r

/-- Accessor for the argDesc field. -/
def Command.argDesc : Command → Option String
  | .mk _ _ _ a _ _ _ => a

/-- Accessor for the description field. -/
def Command.description : Command → Option String
  | .mk _ _ _ _ d _ _ => d

/-- Accessor for the optional handler. -/
def Command.handler : Command → Option HandlerSpec
  | .mk _ _ _ _ _ h _ => h

/-- Accessor for the children mapping. -/
def Command.children : Command → List (String × Command)
  | .mk _ _ _ _ _ _ c => c

/-- Replaces the children mapping (the only field any modelled operation
mutates). -/
def Command.withChildren : Command → List (String × Command) → Command
  | .mk n f r a d h _, cs => .mk n f r a d h cs

/-- JS property lookup `obj[key]` on the children object: the first (and,
keys being unique, only) entry with the given key, or none for undefined. -/
def lookupChild : List (String × Command) → String → Option Command
  | [], _ => none
  | (k, v) :: rest, n => if k = n then some v else lookupChild rest n

/-- JS assignment `obj[key] = value` on a string-keyed object: an existing
key keeps its position, a new key is appended. -/
def upsert : List (String × String) → String → String → List (String × String)
  | [], k, v => [(k, v)]
  | (k1, v1) :: rest, k, v =>
      if k1 = k then (k, v) :: rest else (k1, v1) :: upsert rest k v

/-- JS Array.prototype.join(' '). -/
def joinSpace : List String → String
  | [] => ""
  | [x] => x
  | x :: rest => x ++ " " ++ joinSpace rest

/-- Builds a string from a reversed character accumulator. -/
def ofRev (acc : List Char) : String := String.mk acc.reverse

/-- JS String.prototype.split('&&'): cut at every leftmost non-overlapping
occurrence of the two-character separator. -/
def splitAmpAmp : List Char → List Char → List String
  | [], acc => [ofRev acc]
  | '&' :: '&' :: rest, acc => ofRev acc :: splitAmpAmp rest []
  | c :: rest, acc => splitAmpAmp rest (c :: acc)

/-- JS String.prototype.split('&&') on a string. -/
def jsSplitAmpAmp (s : String) : List String := splitAmpAmp s.data []

/-- JS String.prototype.split(' '): cut at every space character. -/
def splitSpace : List Char → List Char → List String
  | [], acc => [ofRev acc]
  | ' ' :: rest, acc => ofRev acc :: splitSpace rest []
  | c :: rest, acc => splitSpace rest (c :: acc)

/-- JS String.prototype.split(' ') on a string. -/
def jsSplitSpace (s : String) : List String := splitSpace s.data []

/-- JS String.prototype.startsWith('command'). -/
def jsStartsWithCommand (s : String) : Bool := "command".data.isPrefixOf s.data

/-- The loop of splitArgs, one step per character, carrying the inString
and escaped flags, the current token buffer and the collected args.  The
source never resets escaped to false once it has been set. -/
def splitArgsLoop : List Char → Bool → Bool → String → List String → List String
  | [], _, _, cur, args =>
      (if cur.length > 0 then args ++ [cur] else args).filter
        (fun x => x.length != 0)
  | c :: rest, inString, escaped, cur, args =>
      if c = '"' && !escaped then
        splitArgsLoop rest (!inString) escaped cur args
      else if c = '\\' && inString && !escaped then
        splitArgsLoop rest inString true cur args
      else if c = ' ' && !inString then
        splitArgsLoop rest inString escaped "" (args ++ [cur])
      else
        splitArgsLoop rest inString escaped (cur.push c) args

/-- The splitArgs tokenizer from the source: double quotes toggle the
in-string flag, a backslash inside a string sets the escaped flag, a space
outside a string ends the current token, everything else is appended; at
the end a non-empty buffer is flushed and empty tokens are filtered out. -/
def splitArgs (command : String) : List String :=
  splitArgsLoop command.data false false "" []

/-- findCommand from the source: an empty input resolves to the node
itself; otherwise descend into the child named by the first token when it
exists, and stop at the current node when it does not. -/
def Command.findCommand : Command → List String → Command
  | c, [] => c
  | c, t0 :: rest =>
      match lookupChild c.children t0 with
      | none => c
      | some child => child.findCommand rest

/-- addCommand from the source: registering a name that already exists
under this node throws `Multiple commands: fullname#name`; otherwise a new
childless node is appended to the children mapping.  The source returns
the new child and mutates the parent in place; the embedding returns the
updated parent, whose last child is the new node. -/
def Command.addCommand (c : Command) (name : String)
    (argDesc description : Option String) (handler : Option HandlerSpec) :
    Except JSError Command :=
  match lookupChild c.children name with
  | some _ => .error ⟨some ("Multiple commands: " ++ c.fullname ++ "#" ++ name)⟩
  | none => .ok (c.withChildren (c.children ++
      [(name, Command.mk name
          (if c.isRoot then name else c.fullname ++ " " ++ name) false
          argDesc description handler [])]))

/-- removeCommand from the source: delete the child entry if present,
no-op otherwise. -/
def Command.removeCommand (c : Command) (name : String) : Command :=
  c.withChildren (c.children.filter (fun p => p.1 != name))

/-- Convenience wrapper used only to build the concrete example trees:
addCommand, keeping the parent unchanged in the (never exercised)
duplicate case. -/
def addCommandD (c : Command) (name : String)
    (argDesc description : Option String) (handler : Option HandlerSpec) :
    Command :=
  match c.addCommand name argDesc description handler with
  | .ok c2 => c2
  | .error _ => c

/-- The interpreter state threaded through the embedding: the mutable
rootCommand tree, the in-memory customCommands alias mapping, the
persisted contents of ./config/commands.yaml (modelled as the dumped
mapping itself), the output sink, the enabled flag of the interactive
terminal, and the cfg.display.print_stacktrace configuration value. -/
structure InterpState where
  root : Command
  customCommands : List (String × String)
  commandFile : List (String × String)
  output : List OutputLine
  termEnabled : Bool
  printStacktrace : Bool

/-- Runs one handler.  reenter is the sendCommand re-entry used by alias
handlers (the source captures the global sendCommand; the embedding passes
it explicitly to keep the recursion stratified).  The pair's second
component is the thrown value, if any. -/
def runHandlerWith (reenter : String → InterpState → InterpState)
    (h : HandlerSpec) (args : List String) (st : InterpState) :
    InterpState × Option JSError :=
  match h with
  | .print => ({ st with output := st.output ++ [.log (joinSpace args)] }, none)
  | .logH tag =>
      ({ st with output := st.output ++ [.log (tag ++ " " ++ joinSpace args)] },
       none)
  | .throwH m => (st, some ⟨m⟩)
  | .aliasH expansion => (reenter (joinSpace (expansion ++ args)) st, none)
  | .commandH =>
      let name := args.headD "undefined"
      let rest := args.tail
      let cc := upsert st.customCommands name (joinSpace rest)
      let st1 := { st with customCommands := cc, commandFile := cc }
      let root1 := st1.root.removeCommand name
      match root1.addCommand name (some "") (some "") (some (.aliasH rest)) with
      | .error e => ({ st1 with root := root1 }, some e)
      | .ok root2 => ({ st1 with root := root2 }, none)

/-- The terminal case of handle at a node with no matching child: throw
`No command [fullname ]args[0]` when the node has no handler, otherwise
invoke the handler with all unconsumed arguments.  key is the JS value of
args[0] coerced to a string (the string "undefined" when args is empty,
both for the children lookup that led here and for the error message). -/
def handleHere (reenter : String → InterpState → InterpState) (c : Command)
    (args : List String) (key : String) (st : InterpState) :
    InterpState × Option JSError :=
  match c.handler with
  | none =>
      (st, some ⟨some ("No command " ++
        (if c.isRoot then "" else c.fullname ++ " ") ++ key)⟩)
  | some h => runHandlerWith reenter h args st

/-- lookupChild only returns entries of the list. -/
theorem lookupChild_mem {l : List (String × Command)} {k : String}
    {v : Command} (h : lookupChild l k = some v) : (k, v) ∈ l := by
  induction l with
  | nil => simp [lookupChild] at h
  | cons p rest ih =>
    obtain ⟨k1, v1⟩ := p
    simp only [lookupChild] at h
    by_cases hk : k1 = k
    · rw [if_pos hk] at h
      injection h with h2
      subst h2
      subst hk
      exact List.Mem.head _
    · rw [if_neg hk] at h
      exact List.Mem.tail _ (ih h)

/-- A child found by lookupChild is structurally smaller than the list. -/
theorem lookupChild_sizeOf_lt {l : List (String × Command)} {k : String}
    {v : Command} (h : lookupChild l k = some v) : sizeOf v < sizeOf l := by
  have hm := List.sizeOf_lt_of_mem (lookupChild_mem h)
  simp only [Prod.mk.sizeOf_spec] at hm
  omega

/-- The children list is structurally smaller than its node. -/
theorem children_sizeOf_lt (c : Command) : sizeOf c.children < sizeOf c := by
  cases c with
  | mk n f r a d h cs => simp [Command.children]

/-- handle on an empty argument list: the JS code looks up
children[args[0]] with args[0] === undefined, i.e. the key "undefined",
and recurses with the still-empty slice while such a child exists. -/
def handleEmptyWith (reenter : String → InterpState → InterpState)
    (c : Command) (st : InterpState) : InterpState × Option JSError :=
  match hu : lookupChild c.children "undefined" with
  | some fc => handleEmptyWith reenter fc st
  | none => handleHere reenter c [] "undefined" st
termination_by sizeOf c
decreasing_by
  exact Nat.lt_trans (lookupChild_sizeOf_lt hu) (children_sizeOf_lt c)

/-- handle from the source, parameterized by the sendCommand re-entry used
by alias handlers: descend into the child named by the first token when it
exists, otherwise run the terminal case at this node with all remaining
tokens (including the first) as arguments. -/
def handleWith (reenter : String → InterpState → InterpState) :
    Command → List String → InterpState → InterpState × Option JSError
  | c, [], st => handleEmptyWith reenter c st
  | c, a :: rest, st =>
      match lookupChild c.children a with
      | some fc => handleWith reenter fc rest st
      | none => handleHere reenter c (a :: rest) a st

/-- One iteration of the statement loop in sendCommand: tokenize the
statement, run rootCommand.handle on it, and in the catch clause report
the error to the sink only when `error && error.message` is truthy,
with the stack payload when print_stacktrace is configured. -/
def runStatementWith (reenter : String → InterpState → InterpState)
    (com : String) (st : InterpState) : InterpState :=
  let args := splitArgs com
  match handleWith reenter st.root args st with
  | (st2, none) => st2
  | (st2, some e) =>
      match e.msg? with
      | none => st2
      | some m =>
          if m = "" then st2
          else { st2 with output := st2.output ++
            [if st2.printStacktrace then OutputLine.errorStack m
             else OutputLine.error m] }

/-- The statement loop of sendCommand: every statement runs, in order,
regardless of earlier failures. -/
def statementsLoopWith (reenter : String → InterpState → InterpState) :
    List String → InterpState → InterpState
  | [], st => st
  | com :: rest, st =>
      statementsLoopWith reenter rest (runStatementWith reenter com st)

/-- The statement split in sendCommand: a line starting with the literal
prefix "command" is never split; every other line is split on "&&". -/
def statementsOf (input : String) : List String :=
  if jsStartsWithCommand input then [input] else jsSplitAmpAmp input

/-- sendCommand from the source, with a fuel bound on the re-entry depth
of alias handlers (the only unbounded recursion; at fuel 0 a re-entry is
a no-op, and every concrete run below uses ample fuel).  The initial
findCommand on the space-split line is kept as the dead _cmd binding: the
source only compares it against undefined, and findCommand is total, so
the early return can never fire. -/
def sendCommand : Nat → String → InterpState → InterpState
  | 0, _, st => st
  | Nat.succ fuel, input, st =>
      let _cmd := st.root.findCommand
        ((jsSplitSpace input).filter (fun x => x.length != 0))
      let st1 := { st with termEnabled := false }
      let st2 := statementsLoopWith (sendCommand fuel) (statementsOf input) st1
      { st2 with termEnabled := true }

/-- handle as invoked at top level: alias handlers re-enter sendCommand
with the given fuel. -/
def Command.handle (fuel : Nat) (c : Command) (args : List String)
    (st : InterpState) : InterpState × Option JSError :=
  handleWith (sendCommand fuel) c args st

/-- The root node as constructed at module load: new Command('', '', ''). -/
def rootCommand0 : Command := .mk "" "" true (some "") (some "") none []

/-- The root tree right after the module registers its built-in print and
command commands (the help command and any aliases loaded from an existing
commands.yaml are omitted: the runs below never resolve or mutate them). -/
def demoRoot : Command :=
  addCommandD
    (addCommandD rootCommand0 "print" (some "messages")
      (some "Prints out messages to the screen") (some .print))
    "command" (some "alias command") (some "Creates a command alias")
    (some .commandH)

/-- A fresh interpreter state over a given root tree: no aliases, empty
alias file, empty sink, terminal enabled, stack traces off. -/
def initState (root : Command) : InterpState :=
  { root := root, customCommands := [], commandFile := [], output := [],
    termEnabled := true, printStacktrace := false }

/-- Leaf node of the resolution example tree: root -> foo -> bar. -/
def barNode : Command :=
  .mk "bar" "foo bar" false (some "") (some "") (some (.logH "bar")) []

/-- Namespace node (no handler) of the resolution example tree. -/
def fooNode : Command :=
  .mk "foo" "foo" false (some "") (some "") none [("bar", barNode)]

/-- Root of the resolution example tree. -/
def fooRoot : Command := rootCommand0.withChildren [("foo", fooNode)]

/-- Leaf `move north` of the alias example tree, with an observable
logging handler. -/
def northNode : Command :=
  .mk "north" "move north" false (some "") (some "") (some (.logH "north")) []

/-- Namespace node `move` of the alias example tree. -/
def moveNode : Command :=
  .mk "move" "move" false (some "") (some "") none [("north", northNode)]

/-- Root tree for the alias example: the built-ins plus move -> north. -/
def c4Root : Command :=
  demoRoot.withChildren (demoRoot.children ++ [("move", moveNode)])

/-- The state after the user line `command go move north`, i.e. after
defineAlias("go", ["move","north"]) ran through the real pipeline. -/
def c4Defined : InterpState := sendCommand 10 "command go move north" (initState c4Root)

/-- The root-level node that addCustomCommand("go", ["move","north"])
registers: a childless node whose handler replays the expansion. -/
def goAliasNode : Command :=
  .mk "go" "go" false (some "") (some "") (some (.aliasH ["move", "north"])) []

/-- Root with one extra command whose handler throws a message-less error
(modelling a JS handler that throws a value without a truthy message). -/
def boomRoot : Command :=
  addCommandD demoRoot "boom" (some "") (some "") (some (.throwH none))

/-- Descendant-or-self relation on command trees: SubNode d c holds when d
is reachable from c through the children mapping. -/
inductive SubNode : Command → Command → Prop where
  | refl (c : Command) : SubNode c c
  | child {c d fc : Command} {key : String} :
      (key, fc) ∈ c.children → SubNode d fc → SubNode d c

/-- Unfolding helper for the one well-founded definition: when a node has
no child literally named "undefined", handle on an empty argument list
lands in the terminal case at that node. -/
theorem handleEmptyWith_no_undef (reenter : String → InterpState → InterpState)
    (c : Command) (st : InterpState)
    (h : lookupChild c.children "undefined" = none) :
    handleEmptyWith reenter c st = handleHere reenter c [] "undefined" st := by
  unfold handleEmptyWith
  split
  · rename_i fc hfc
    rw [h] at hfc
    cases hfc
  · rfl

/-- Unfolding helper: when a node does have a child named "undefined",
handle on an empty argument list descends into it (the JS slice of an
empty array being empty again). -/
theorem handleEmptyWith_undef (reenter : String → InterpState → InterpState)
    (c fc : Command) (st : InterpState)
    (h : lookupChild c.children "undefined" = some fc) :
    handleEmptyWith reenter c st = handleEmptyWith reenter fc st := by
  conv_lhs => rw [handleEmptyWith]
  split
  · rename_i fc2 hfc
    rw [h] at hfc
    cases hfc
    rfl
  · rename_i hfc
    rw [h] at hfc
    cases hfc

/-- The catch clause of the statement loop, as one reusable equation: a
statement whose dispatch throws an error carrying a non-empty message ends
with that message appended to the sink as an error report (stack traces
off). -/
theorem runStatement_reports (reenter : String → InterpState → InterpState)
    (com : String) (st st2 : InterpState) (m : String)
    (h : handleWith reenter st.root (splitArgs com) st = (st2, some ⟨some m⟩))
    (hm : ¬ m = "") (hps : st2.printStacktrace = false) :
    runStatementWith reenter com st =
      { st2 with output := st2.output ++ [OutputLine.error m] } := by
  simp only [runStatementWith]
  rw [h]
  simp [hm, hps]

/-- The catch clause swallows a failure whose error has no message at all:
nothing is reported, the statement simply ends. -/
theorem runStatement_swallows (reenter : String → InterpState → InterpState)
    (com : String) (st st2 : InterpState)
    (h : handleWith reenter st.root (splitArgs com) st = (st2, some ⟨none⟩)) :
    runStatementWith reenter com st = st2 := by
  simp only [runStatementWith]
  rw [h]

/-- C1 (code bug): the spec and the claim require the backslash inside a
quoted span to escape only the following character, so that
tokenize('a "b\"c" d') = ["a", 'b"c', "d"]; the code sets the escaped flag
and never resets it, so the closing quote is itself treated as escaped and
appended, the quoted span never ends, and the result is the two tokens
["a", 'b"c" d'].  The last conjunct confirms the part of the claim that
does hold: outside quoted spans a backslash is an ordinary character. -/
theorem tokenizer_escape_bug :
    splitArgs "a \"b\\\"c\" d" = ["a", "b\"c\" d"] ∧
    splitArgs "a \"b\\\"c\" d" ≠ ["a", "b\"c", "d"] ∧
    splitArgs "a\\b c" = ["a\\b", "c"] := by
  exact ⟨rfl, by decide, rfl⟩

/-- C6: statement isolation.  On the spec's example line, the unknown
first statement is reported and the second statement still prints; and in
general the statement loop always continues with the remaining statements
after running one, whatever happened in it. -/
theorem statement_isolation :
    (sendCommand 2 "bad && print hi" (initState demoRoot)).output =
      [OutputLine.error "No command bad", OutputLine.log "hi"] ∧
    (∀ (f : Nat) (com : String) (coms : List String) (st : InterpState),
      statementsLoopWith (sendCommand f) (com :: coms) st =
        statementsLoopWith (sendCommand f) coms
          (runStatementWith (sendCommand f) com st)) := by
  exact ⟨rfl, fun _ _ _ _ => rfl⟩

/-- C7: lines are split into statements on the literal separator "&&",
except that a line beginning with the reserved word command is passed
through whole; concretely, defining an alias whose expansion contains "&&"
stores the entire remainder as one expansion, registers the alias node
with the full token list, and dispatches nothing else from the line. -/
theorem command_lines_not_split :
    (∀ input : String, jsStartsWithCommand input = true →
      statementsOf input = [input]) ∧
    (∀ input : String, jsStartsWithCommand input = false →
      statementsOf input = jsSplitAmpAmp input) ∧
    (sendCommand 2 "command go print a && print b"
        (initState demoRoot)).customCommands = [("go", "print a && print b")] ∧
    lookupChild (sendCommand 2 "command go print a && print b"
        (initState demoRoot)).root.children "go" =
      some (Command.mk "go" "go" false (some "") (some "")
        (some (.aliasH ["print", "a", "&&", "print", "b"])) []) ∧
    (sendCommand 2 "command go print a && print b"
        (initState demoRoot)).output = [] := by
  refine ⟨fun input h => ?_, fun input h => ?_, rfl, rfl, rfl⟩
  · simp [statementsOf, h]
  · simp [statementsOf, h]

/-- Witness for C7 at concrete inputs: an alias-definition line with an
embedded separator stays whole, an ordinary line is split on it. -/
theorem command_lines_not_split_witness :
    statementsOf "command go x && y" = ["command go x && y"] ∧
    statementsOf "a && b" = ["a ", " b"] :=
  ⟨command_lines_not_split.1 "command go x && y" rfl,
   command_lines_not_split.2.1 "a && b" rfl⟩

/-- C10: the statement split happens on the raw line before tokenization,
so quoting does not protect the separator: any non-alias-definition line
is split on every occurrence of "&&" in the raw text, and concretely the
line `print "a && b"` is cut inside the quoted span, printing the first
fragment and failing on the second. -/
theorem raw_split_ignores_quotes :
    (∀ input : String, jsStartsWithCommand input = false →
      statementsOf input = jsSplitAmpAmp input) ∧
    statementsOf "print \"a && b\"" = ["print \"a ", " b\""] ∧
    (sendCommand 2 "print \"a && b\"" (initState demoRoot)).output =
      [OutputLine.log "a ", OutputLine.error "No command b"] := by
  refine ⟨fun input h => ?_, rfl, rfl⟩
  simp [statementsOf, h]

/-- Witness for C10 at a concrete input: a separator occurrence splits a
plain line. -/
theorem raw_split_ignores_quotes_witness :
    statementsOf "x&&y" = ["x", "y"] :=
  raw_split_ignores_quotes.1 "x&&y" rfl

/-- Unfolding equation of findCommand on a non-empty token list. -/
theorem findCommand_cons (c : Command) (t0 : String) (rest : List String) :
    c.findCommand (t0 :: rest) =
      match lookupChild c.children t0 with
      | none => c
      | some child => child.findCommand rest := rfl

/-- Unfolding equation of handle on a non-empty argument list. -/
theorem handleWith_cons (re : String → InterpState → InterpState)
    (c : Command) (a : String) (rest : List String) (st : InterpState) :
    handleWith re c (a :: rest) st =
      match lookupChild c.children a with
      | some fc => handleWith re fc rest st
      | none => handleHere re c (a :: rest) a st := rfl

/-- C2 counterexample: submitting a blank input line is not a no-op.  The
root has no handler and args[0] is the JS undefined, so handle throws
`No command undefined`, and sendCommand reports exactly that error to the
output sink. -/
theorem blank_line_not_noop :
    (sendCommand 2 "" (initState demoRoot)).output =
      [OutputLine.error "No command undefined"] ∧
    Command.handle 1 demoRoot [] (initState demoRoot) =
      (initState demoRoot, some ⟨some "No command undefined"⟩) := by
  have h0 : ∀ s : InterpState,
      handleWith (sendCommand 1) demoRoot [] s =
        (s, some ⟨some "No command undefined"⟩) := by
    intro s
    show handleEmptyWith (sendCommand 1) demoRoot s = _
    rw [handleEmptyWith_no_undef (sendCommand 1) demoRoot s rfl]
    rfl
  constructor
  · have h1 := runStatement_reports (sendCommand 1) ""
      { initState demoRoot with termEnabled := false }
      { initState demoRoot with termEnabled := false }
      "No command undefined"
      (h0 { initState demoRoot with termEnabled := false }) (by decide) rfl
    calc (sendCommand 2 "" (initState demoRoot)).output
        = (runStatementWith (sendCommand 1) ""
            { initState demoRoot with termEnabled := false }).output := rfl
      _ = [OutputLine.error "No command undefined"] := by rw [h1]; rfl
  · exact h0 (initState demoRoot)

/-- C2 amended: dispatching an empty token sequence at a root with no
handler (and no child literally named "undefined") throws
`No command undefined`; through sendCommand a blank line therefore reports
that error to the output sink (stack traces off) and re-enables the
terminal, instead of being a silent no-op. -/
theorem blank_line_reports_unknown (f : Nat) (st : InterpState)
    (h1 : lookupChild st.root.children "undefined" = none)
    (h2 : st.root.handler = none)
    (h3 : st.root.isRoot = true)
    (h4 : st.printStacktrace = false) :
    Command.handle f st.root [] st = (st, some ⟨some "No command undefined"⟩) ∧
    sendCommand (f + 1) "" st =
      { st with
          termEnabled := true
          output := st.output ++ [OutputLine.error "No command undefined"] } := by
  have hp : ∀ s : InterpState,
      handleWith (sendCommand f) st.root [] s =
        (s, some ⟨some "No command undefined"⟩) := by
    intro s
    show handleEmptyWith (sendCommand f) st.root s = _
    rw [handleEmptyWith_no_undef (sendCommand f) st.root s h1]
    unfold handleHere
    rw [h2, h3]
    rfl
  refine ⟨hp st, ?_⟩
  have h5 := runStatement_reports (sendCommand f) ""
    { st with termEnabled := false } { st with termEnabled := false }
    "No command undefined" (hp { st with termEnabled := false })
    (by decide) h4
  calc sendCommand (f + 1) "" st
      = { runStatementWith (sendCommand f) "" { st with termEnabled := false }
          with termEnabled := true } := rfl
    _ = { st with
            termEnabled := true
            output := st.output ++ [OutputLine.error "No command undefined"] } := by
        rw [h5]

/-- Witness for C2's amended statement at the concrete initial state. -/
theorem blank_line_reports_unknown_witness :
    Command.handle 1 (initState demoRoot).root [] (initState demoRoot) =
      (initState demoRoot, some ⟨some "No command undefined"⟩) ∧
    sendCommand 2 "" (initState demoRoot) =
      { initState demoRoot with
          termEnabled := true
          output := (initState demoRoot).output ++
            [OutputLine.error "No command undefined"] } :=
  blank_line_reports_unknown 1 (initState demoRoot) rfl rfl rfl rfl

/-- C3 counterexample: a handler that throws a value without a truthy
message fails the `error && error.message` test in the catch clause, so
the failure produces no output at all — not every failure is reported. -/
theorem silent_failure_counterexample :
    (Command.handle 1 boomRoot ["boom", "x"] (initState boomRoot)).2 =
      some ⟨none⟩ ∧
    (sendCommand 2 "boom x" (initState boomRoot)).output = [] :=
  ⟨rfl, rfl⟩

/-- C3 amended: a statement whose dispatch or handler throws an error
carrying a non-empty message is reported to the output sink as an error
message; the statement loop then continues with the remaining statements,
and sendCommand always returns with the terminal re-enabled, so the
interpreter accepts the next line.  (Failures without a truthy message are
silently swallowed, see the counterexample.) -/
theorem failures_with_message_reported (f : Nat) (com : String)
    (st st2 : InterpState) (m : String) (hm : m ≠ "")
    (hps : st2.printStacktrace = false)
    (hthrow : Command.handle f st.root (splitArgs com) st =
      (st2, some ⟨some m⟩)) :
    runStatementWith (sendCommand f) com st =
      { st2 with output := st2.output ++ [OutputLine.error m] } ∧
    (∀ coms : List String,
      statementsLoopWith (sendCommand f) (com :: coms) st =
        statementsLoopWith (sendCommand f) coms
          { st2 with output := st2.output ++ [OutputLine.error m] }) ∧
    (∀ (input : String) (s : InterpState),
      (sendCommand (f + 1) input s).termEnabled = true) := by
  have hr := runStatement_reports (sendCommand f) com st st2 m hthrow hm hps
  refine ⟨hr, fun coms => ?_, fun input s => rfl⟩
  show statementsLoopWith (sendCommand f) coms
    (runStatementWith (sendCommand f) com st) = _
  rw [hr]

/-- Witness for C3's amended statement: the unknown-command failure of
`bad` carries the message `No command bad` and is reported. -/
theorem failures_with_message_reported_witness :
    runStatementWith (sendCommand 1) "bad" (initState demoRoot) =
      { initState demoRoot with output := (initState demoRoot).output ++
          [OutputLine.error "No command bad"] } :=
  (failures_with_message_reported 1 "bad" (initState demoRoot)
    (initState demoRoot) "No command bad" (by decide) rfl rfl).1

/-- C5: greedy-prefix resolution.  An empty token list resolves to the
node itself; a non-empty list descends into the child named by the first
token when it exists and otherwise stops at the current node, in which
case the handler (when present) is invoked with all unconsumed tokens,
including the first. -/
theorem greedy_resolution (c : Command) (ts : List String) :
    (ts = [] → c.findCommand ts = c) ∧
    (∀ t0 rest, ts = t0 :: rest →
      (∀ child, lookupChild c.children t0 = some child →
        c.findCommand ts = child.findCommand rest) ∧
      (lookupChild c.children t0 = none →
        c.findCommand ts = c ∧
        ∀ (f : Nat) (h : HandlerSpec) (st : InterpState), c.handler = some h →
          Command.handle f c ts st =
            runHandlerWith (sendCommand f) h ts st)) := by
  refine ⟨fun h => by subst h; rfl, fun t0 rest hts => ?_⟩
  subst hts
  refine ⟨fun child hc => ?_, fun hn => ⟨?_, fun f h st hh => ?_⟩⟩
  · rw [findCommand_cons, hc]
  · rw [findCommand_cons, hn]
  · show handleWith (sendCommand f) c (t0 :: rest) st = _
    rw [handleWith_cons, hn]
    show handleHere (sendCommand f) c (t0 :: rest) t0 st = _
    unfold handleHere
    rw [hh]

/-- Witness for C5 at the spec's example tree root -> foo -> bar: full
descent leaves ["baz"] for bar, a missing child stops at foo, and a
terminal node's handler receives the unconsumed tokens. -/
theorem greedy_resolution_witness :
    fooRoot.findCommand ["foo", "bar", "baz"] =
      fooNode.findCommand ["bar", "baz"] ∧
    fooNode.findCommand ["qux"] = fooNode ∧
    Command.handle 1 barNode ["baz"] (initState fooRoot) =
      runHandlerWith (sendCommand 1) (.logH "bar") ["baz"] (initState fooRoot) :=
  ⟨((greedy_resolution fooRoot ["foo", "bar", "baz"]).2 "foo" ["bar", "baz"]
      rfl).1 fooNode rfl,
   (((greedy_resolution fooNode ["qux"]).2 "qux" [] rfl).2 rfl).1,
   ((((greedy_resolution barNode ["baz"]).2 "baz" [] rfl).2 rfl).2) 1
     (.logH "bar") (initState fooRoot) rfl⟩

/-- C8: duplicate registration under one parent throws the configuration
error `Multiple commands: fullname#name` at registration time; a fresh
name is registered by appending exactly one new (childless) node to the
parent's children; and the same name registers fine under two different
parents. -/
theorem duplicate_registration (c : Command) (n : String)
    (a d : Option String) (h : Option HandlerSpec) :
    ((lookupChild c.children n).isSome = true →
      c.addCommand n a d h =
        .error ⟨some ("Multiple commands: " ++ c.fullname ++ "#" ++ n)⟩) ∧
    (lookupChild c.children n = none →
      c.addCommand n a d h = .ok (c.withChildren (c.children ++
        [(n, Command.mk n (if c.isRoot then n else c.fullname ++ " " ++ n)
          false a d h [])]))) ∧
    (∀ c2 : Command, lookupChild c.children n = none →
      lookupChild c2.children n = none →
      (∃ r, c.addCommand n a d h = .ok r) ∧
      (∃ r2, c2.addCommand n a d h = .ok r2)) := by
  refine ⟨fun hs => ?_, fun hn => ?_, fun c2 hn hn2 => ⟨?_, ?_⟩⟩
  · unfold Command.addCommand
    cases hl : lookupChild c.children n with
    | none => rw [hl] at hs; simp at hs
    | some v => rfl
  · unfold Command.addCommand
    rw [hn]
  · exact ⟨c.withChildren (c.children ++
      [(n, Command.mk n (if c.isRoot then n else c.fullname ++ " " ++ n)
        false a d h [])]), by unfold Command.addCommand; rw [hn]⟩
  · exact ⟨c2.withChildren (c2.children ++
      [(n, Command.mk n (if c2.isRoot then n else c2.fullname ++ " " ++ n)
        false a d h [])]), by unfold Command.addCommand; rw [hn2]⟩

/-- Witness for C8: re-registering the built-in print name under the root
fails with the configuration error, while a fresh name succeeds under two
different parents. -/
theorem duplicate_registration_witness :
    demoRoot.addCommand "print" (some "") (some "") none =
      .error ⟨some ("Multiple commands: " ++ demoRoot.fullname ++ "#" ++
        "print")⟩ ∧
    (∃ r, demoRoot.addCommand "unused" (some "") (some "") none = .ok r) ∧
    (∃ r2, rootCommand0.addCommand "unused" (some "") (some "") none =
      .ok r2) :=
  ⟨(duplicate_registration demoRoot "print" (some "") (some "") none).1 rfl,
   ((duplicate_registration demoRoot "unused" (some "") (some "") none).2.2
      rootCommand0 rfl rfl).1,
   ((duplicate_registration demoRoot "unused" (some "") (some "") none).2.2
      rootCommand0 rfl rfl).2⟩

/-- C9: findCommand is total by construction (it is a plain terminating
function into Command, never an optional) and always lands on a node of
the tree it started from: the resolved node is a descendant-or-self of the
starting node.  The `cmd === undefined` early return in sendCommand can
therefore never fire and is modelled as the dead binding it is. -/
theorem findCommand_total (c : Command) (ts : List String) :
    SubNode (c.findCommand ts) c := by
  induction ts generalizing c with
  | nil => exact SubNode.refl c
  | cons t rest ih =>
    cases hl : lookupChild c.children t with
    | none =>
      have he : c.findCommand (t :: rest) = c := by
        rw [findCommand_cons, hl]
      rw [he]
      exact SubNode.refl c
    | some child =>
      have he : c.findCommand (t :: rest) = child.findCommand rest := by
        rw [findCommand_cons, hl]
      rw [he]
      exact SubNode.child (lookupChild_mem hl) (ih child)

/-- C4: alias round-trip.  After `command go move north` ran through the
real pipeline, dispatching `go fast` produces exactly the output of
dispatching `move north fast` directly in the same state (namely the
north handler running with the argument fast); and in general the alias
handler re-enters the full sendCommand pipeline with the stored expansion
tokens concatenated with the runtime arguments, joined back into a line
and re-resolved at invocation time. -/
theorem alias_roundtrip_go_fast :
    (sendCommand 10 "go fast" c4Defined).output =
      (sendCommand 10 "move north fast" c4Defined).output ∧
    (sendCommand 10 "go fast" c4Defined).output = [OutputLine.log "north fast"] ∧
    (∀ (runArgs : List String) (st : InterpState) (f : Nat),
      lookupChild st.root.children "go" = some goAliasNode →
        Command.handle f st.root ("go" :: runArgs) st =
          (sendCommand f (joinSpace (["move", "north"] ++ runArgs)) st,
           none)) := by
  refine ⟨rfl, rfl, fun runArgs st f hgo => ?_⟩
  show handleWith (sendCommand f) st.root ("go" :: runArgs) st = _
  rw [handleWith_cons, hgo]
  cases runArgs with
  | nil =>
    show handleEmptyWith (sendCommand f) goAliasNode st = _
    rw [handleEmptyWith_no_undef (sendCommand f) goAliasNode st rfl]
    rfl
  | cons a as => rfl

/-- Witness for C4's general re-entry equation, at the state produced by
the real alias definition and the runtime argument fast. -/
theorem alias_roundtrip_witness :
    Command.handle 4 c4Defined.root ["go", "fast"] c4Defined =
      (sendCommand 4 (joinSpace (["move", "north"] ++ ["fast"])) c4Defined,
       none) :=
  alias_roundtrip_go_fast.2.2 ["fast"] c4Defined 4 rfl
